import Mathlib

/-!
Verification development for the Earth-Population-Map viewer (`Islands.py`).

The Python source is shallowly embedded: Python floats become real numbers,
Python lists become Lean lists, and the mutable viewer state becomes explicit
state records with pure transition functions.  Each definition mirrors the
corresponding function or handler of `Islands.py`.
-/

noncomputable section

namespace Islands

/-! ## GeoProjector: `generate_points_from_csv`, the spherical projection -/

/-- Embedding of Python `math.radians`. -/
def radians (x : ℝ) : ℝ := x * (Real.pi / 180)

/-- Embedding of the projection performed per CSV row in
`generate_points_from_csv` (`Islands.py` lines 192-196):
`theta = radians(90 - lat)`, `phi = radians(lon)`,
`x = -radius*sin(theta)*cos(phi)`, `y = radius*cos(theta)`,
`z = radius*sin(theta)*sin(phi)`. -/
def project (lat lon radius : ℝ) : ℝ × ℝ × ℝ :=
  let theta := radians (90 - lat)
  let phi := radians lon
  (-radius * Real.sin theta * Real.cos phi,
   radius * Real.cos theta,
   radius * Real.sin theta * Real.sin phi)

/-- Euclidean norm of a 3D point. -/
def norm3 (p : ℝ × ℝ × ℝ) : ℝ := Real.sqrt (p.1 ^ 2 + p.2.1 ^ 2 + p.2.2 ^ 2)

theorem radians_zero : radians 0 = 0 := by
  simp [radians]

theorem radians_one_eighty : radians 180 = Real.pi := by
  unfold radians
  ring

/-- C1: for every latitude in [-90,90], longitude in [-180,180], and
nonnegative radius, the projection equals the spec formula
`(-r·sin θ·cos φ, r·cos θ, r·sin θ·sin φ)` with `θ = radians (90 - lat)` and
`φ = radians lon`; at `lat = 90` it is `(0, r, 0)`, at `lat = -90` it is
`(0, -r, 0)`, and its Euclidean norm equals the radius. -/
theorem project_spec (lat lon r : ℝ) (h1 : -90 ≤ lat) (h2 : lat ≤ 90)
    (h3 : -180 ≤ lon) (h4 : lon ≤ 180) (hr : 0 ≤ r) :
    project lat lon r =
      (-r * Real.sin (radians (90 - lat)) * Real.cos (radians lon),
       r * Real.cos (radians (90 - lat)),
       r * Real.sin (radians (90 - lat)) * Real.sin (radians lon)) ∧
    project 90 lon r = (0, r, 0) ∧
    project (-90) lon r = (0, -r, 0) ∧
    norm3 (project lat lon r) = r := by
  refine ⟨rfl, ?_, ?_, ?_⟩
  · show ((-r * Real.sin (radians (90 - 90)) * Real.cos (radians lon),
      r * Real.cos (radians (90 - 90)),
      r * Real.sin (radians (90 - 90)) * Real.sin (radians lon)) : ℝ × ℝ × ℝ) = (0, r, 0)
    have h90 : (90 : ℝ) - 90 = 0 := by norm_num
    rw [h90, radians_zero]
    simp
  · show ((-r * Real.sin (radians (90 - -90)) * Real.cos (radians lon),
      r * Real.cos (radians (90 - -90)),
      r * Real.sin (radians (90 - -90)) * Real.sin (radians lon)) : ℝ × ℝ × ℝ) = (0, -r, 0)
    have h180 : (90 : ℝ) - -90 = 180 := by norm_num
    rw [h180, radians_one_eighty]
    simp
  · show Real.sqrt ((-r * Real.sin (radians (90 - lat)) * Real.cos (radians lon)) ^ 2 +
      (r * Real.cos (radians (90 - lat))) ^ 2 +
      (r * Real.sin (radians (90 - lat)) * Real.sin (radians lon)) ^ 2) = r
    have hs1 := Real.sin_sq_add_cos_sq (radians (90 - lat))
    have hs2 := Real.sin_sq_add_cos_sq (radians lon)
    have hsum : (-r * Real.sin (radians (90 - lat)) * Real.cos (radians lon)) ^ 2 +
        (r * Real.cos (radians (90 - lat))) ^ 2 +
        (r * Real.sin (radians (90 - lat)) * Real.sin (radians lon)) ^ 2 = r ^ 2 := by
      have e : (-r * Real.sin (radians (90 - lat)) * Real.cos (radians lon)) ^ 2 +
          (r * Real.cos (radians (90 - lat))) ^ 2 +
          (r * Real.sin (radians (90 - lat)) * Real.sin (radians lon)) ^ 2 =
          r ^ 2 * (Real.sin (radians (90 - lat)) ^ 2 *
              (Real.sin (radians lon) ^ 2 + Real.cos (radians lon) ^ 2) +
            Real.cos (radians (90 - lat)) ^ 2) := by ring
      rw [e, hs2, mul_one, hs1, mul_one]
    rw [hsum]
    exact Real.sqrt_sq hr

/-- Witness for C1 at `lat = 0`, `lon = 0`, `r = 2`. -/
theorem project_spec_witness :
    ((-90 : ℝ) ≤ 0 ∧ (0 : ℝ) ≤ 90 ∧ (-180 : ℝ) ≤ 0 ∧ (0 : ℝ) ≤ 180 ∧ (0 : ℝ) ≤ 2) ∧
    (project 0 0 2 =
      (-2 * Real.sin (radians (90 - 0)) * Real.cos (radians 0),
       2 * Real.cos (radians (90 - 0)),
       2 * Real.sin (radians (90 - 0)) * Real.sin (radians 0)) ∧
     project 90 0 2 = (0, 2, 0) ∧
     project (-90) 0 2 = (0, -2, 0) ∧
     norm3 (project 0 0 2) = 2) :=
  ⟨by norm_num,
   project_spec 0 0 2 (by norm_num) (by norm_num) (by norm_num) (by norm_num) (by norm_num)⟩

/-! ## ColormapEngine: `generate_color_scheme` and `hsv_to_rgb` -/

/-- An RGBA color; each Python `colors[i] = [r, g, b, a]` row becomes one value. -/
structure RGBA where
  r : ℝ
  g : ℝ
  b : ℝ
  a : ℝ

/-- Python float `%` for a positive modulus: `a % b = a - b * floor (a / b)`. -/
def pymod (a b : ℝ) : ℝ := a - b * (⌊a / b⌋ : ℝ)

/-- Embedding of `hsv_to_rgb` (`Islands.py` lines 315-335): sector decomposition
of the hue circle with chroma `c = v * s`, intermediate `x`, offset `m = v - c`. -/
def hsv_to_rgb (h s v : ℝ) : ℝ × ℝ × ℝ :=
  let h := pymod h 360
  let c := v * s
  let x := c * (1 - |pymod (h / 60) 2 - 1|)
  let m := v - c
  if 0 ≤ h ∧ h < 60 then (c + m, x + m, 0 + m)
  else if 60 ≤ h ∧ h < 120 then (x + m, c + m, 0 + m)
  else if 120 ≤ h ∧ h < 180 then (0 + m, c + m, x + m)
  else if 180 ≤ h ∧ h < 240 then (0 + m, x + m, c + m)
  else if 240 ≤ h ∧ h < 300 then (x + m, 0 + m, c + m)
  else (c + m, 0 + m, x + m)

/-- Per-value kernel of `generate_color_scheme` (`Islands.py` lines 239-313):
the color assigned to one normalized value under the selected scheme string,
with the final `else` branch as the green-red fallback. -/
def colorOf (scheme : String) (val : ℝ) : RGBA :=
  if scheme = "plasma" then
    if val < 0.25 then
      let t := val * 4
      ⟨0.1 + 0.4 * t, 0.0, 0.3 + 0.4 * t, 0.8⟩
    else if val < 0.5 then
      let t := (val - 0.25) * 4
      ⟨0.5 + 0.3 * t, 0.1 * t, 0.7 - 0.2 * t, 0.9⟩
    else if val < 0.75 then
      let t := (val - 0.5) * 4
      ⟨0.8 + 0.2 * t, 0.1 + 0.4 * t, 0.5 - 0.5 * t, 1.0⟩
    else
      let t := (val - 0.75) * 4
      ⟨1.0, 0.5 + 0.5 * t, 0.0, 1.0⟩
  else if scheme = "viridis" then
    if val < 0.25 then
      let t := val * 4
      ⟨0.3 * t, 0.0, 0.4 + 0.2 * t, 0.8⟩
    else if val < 0.5 then
      let t := (val - 0.25) * 4
      ⟨0.3 - 0.1 * t, 0.2 * t, 0.6 + 0.2 * t, 0.9⟩
    else if val < 0.75 then
      let t := (val - 0.5) * 4
      ⟨0.2 * t, 0.2 + 0.6 * t, 0.8 - 0.4 * t, 1.0⟩
    else
      let t := (val - 0.75) * 4
      ⟨0.2 + 0.8 * t, 0.8 + 0.2 * t, 0.4 - 0.4 * t, 1.0⟩
  else if scheme = "hot" then
    if val < 0.33 then
      let t := val * 3
      ⟨t, 0.0, 0.0, 0.7 + 0.3 * t⟩
    else if val < 0.66 then
      let t := (val - 0.33) * 3
      ⟨1.0, t, 0.0, 1.0⟩
    else
      let t := (val - 0.66) * 3
      ⟨1.0, 1.0, t, 1.0⟩
  else if scheme = "cool" then
    ⟨val, 1.0 - val, 1.0, 0.8⟩
  else if scheme = "rainbow" then
    let hue := val * 300
    let rgb := hsv_to_rgb hue 1.0 1.0
    ⟨rgb.1, rgb.2.1, rgb.2.2, 0.9⟩
  else
    ⟨val, 1.0 - val, 0.0, 0.8⟩

/-- Embedding of `generate_color_scheme`: one RGBA row per normalized value. -/
def generate_color_scheme (scheme : String) (normalized_values : List ℝ) : List RGBA :=
  normalized_values.map (colorOf scheme)

/-- C4 counterexample: the claimed anchor `hot(1) = (1,1,1,1.0)` is false on
the code. At `val = 1` the `hot` branch computes `t = (1 - 0.66) * 3 = 1.02`,
so the blue component is `51/50`, not `1`. -/
theorem colormap_anchor_counterexample : colorOf "hot" 1 ≠ ⟨1, 1, 1, 1⟩ := by
  have h : colorOf "hot" 1 = ⟨1, 1, 51 / 50, 1⟩ := by
    simp [colorOf]; norm_num
  rw [h]
  simp [RGBA.mk.injEq]
  norm_num

/-- C4 amended: the anchor equalities `greenRed(0) = (0,1,0,0.8)`,
`greenRed(1) = (1,0,0,0.8)`, `cool(0.5) = (0.5,0.5,1,0.8)` and
`hot(0) = (0,0,0,0.7)` hold, but `hot(1) = (1,1,1.02,1.0)`: the blue
component overshoots to `51/50` because the last segment multiplies
`(val - 0.66)` by `3`. -/
theorem colormap_anchors_amended :
    colorOf "green-red" 0 = ⟨0, 1, 0, 0.8⟩ ∧
    colorOf "green-red" 1 = ⟨1, 0, 0, 0.8⟩ ∧
    colorOf "cool" 0.5 = ⟨0.5, 0.5, 1, 0.8⟩ ∧
    colorOf "hot" 0 = ⟨0, 0, 0, 0.7⟩ ∧
    colorOf "hot" 1 = ⟨1, 1, 51 / 50, 1⟩ := by
  refine ⟨?_, ?_, ?_, ?_, ?_⟩ <;> (simp [colorOf]; norm_num)

/-- C8 counterexample: the claim says the viridis alpha equals `1.0` for all
`v ≥ 0.25`, but at `v = 0.25` the code takes the second segment, whose alpha
is `0.9`. -/
theorem viridis_alpha_counterexample : (colorOf "viridis" 0.25).a ≠ 1 := by
  have h : (colorOf "viridis" 0.25).a = 0.9 := by
    simp [colorOf]; norm_num
  rw [h]
  norm_num

/-- C8 amended: under the viridis scheme the alpha component is the constant
`0.8` on the first segment `[0, 0.25)`, the constant `0.9` on the second
segment `[0.25, 0.5)`, and `1.0` from `v = 0.5` on (it never rises within the
first segment). -/
theorem viridis_alpha_amended (v : ℝ) :
    (0 ≤ v → v < 0.25 → (colorOf "viridis" v).a = 0.8) ∧
    (0.25 ≤ v → v < 0.5 → (colorOf "viridis" v).a = 0.9) ∧
    (0.5 ≤ v → v ≤ 1 → (colorOf "viridis" v).a = 1) := by
  refine ⟨?_, ?_, ?_⟩ <;> intro h1 h2 <;> simp [colorOf] <;>
    split_ifs with ha hb hc <;> (first | rfl | linarith)

/-- Witness for C8 amended at `v = 0.125`, `v = 0.3` and `v = 0.6`. -/
theorem viridis_alpha_amended_witness :
    (colorOf "viridis" 0.125).a = 0.8 ∧
    (colorOf "viridis" 0.3).a = 0.9 ∧
    (colorOf "viridis" 0.6).a = 1 :=
  ⟨(viridis_alpha_amended 0.125).1 (by norm_num) (by norm_num),
   (viridis_alpha_amended 0.3).2.1 (by norm_num) (by norm_num),
   (viridis_alpha_amended 0.6).2.2 (by norm_num) (by norm_num)⟩

/-- The Python float modulus lies in `[0, b)` for a positive modulus. -/
theorem pymod_nonneg_lt (a b : ℝ) (hb : 0 < b) : 0 ≤ pymod a b ∧ pymod a b < b := by
  unfold pymod
  constructor
  · have h1 : ((⌊a / b⌋ : ℤ) : ℝ) ≤ a / b := Int.floor_le _
    have h2 : b * ((⌊a / b⌋ : ℤ) : ℝ) ≤ b * (a / b) :=
      mul_le_mul_of_nonneg_left h1 (le_of_lt hb)
    have h3 : b * (a / b) = a := by field_simp
    linarith
  · have h1 : a / b < ((⌊a / b⌋ : ℤ) : ℝ) + 1 := Int.lt_floor_add_one _
    have h2 : b * (a / b) < b * (((⌊a / b⌋ : ℤ) : ℝ) + 1) := (mul_lt_mul_left hb).mpr h1
    have h3 : b * (a / b) = a := by field_simp
    nlinarith

/-- At full saturation and value (the only way the code calls it), every
component produced by `hsv_to_rgb` lies in `[0, 1]`. -/
theorem hsv_to_rgb_unit_bounds (h : ℝ) :
    (0 ≤ (hsv_to_rgb h 1 1).1 ∧ (hsv_to_rgb h 1 1).1 ≤ 1) ∧
    (0 ≤ (hsv_to_rgb h 1 1).2.1 ∧ (hsv_to_rgb h 1 1).2.1 ≤ 1) ∧
    (0 ≤ (hsv_to_rgb h 1 1).2.2 ∧ (hsv_to_rgb h 1 1).2.2 ≤ 1) := by
  have hw := pymod_nonneg_lt (pymod h 360 / 60) 2 (by norm_num)
  have habs0 : 0 ≤ |pymod (pymod h 360 / 60) 2 - 1| := abs_nonneg _
  have habs1 : |pymod (pymod h 360 / 60) 2 - 1| ≤ 1 :=
    abs_le.mpr ⟨by linarith [hw.1], by linarith [hw.2]⟩
  simp only [hsv_to_rgb]
  split_ifs <;> refine ⟨⟨?_, ?_⟩, ⟨?_, ?_⟩, ⟨?_, ?_⟩⟩ <;> simp <;> linarith

set_option maxHeartbeats 1600000 in
/-- C3 amended: for every scheme string and every normalized `v` in `[0,1]`,
the red, green and alpha components of the color lie in `[0,1]`, and so does
the blue component for every scheme other than `hot`; the `hot` blue component
can overshoot and is only bounded by `51/50` (reached at `v = 1`). -/
theorem colorOf_bounds_amended (scheme : String) (v : ℝ) (h0 : 0 ≤ v) (h1 : v ≤ 1) :
    (0 ≤ (colorOf scheme v).r ∧ (colorOf scheme v).r ≤ 1) ∧
    (0 ≤ (colorOf scheme v).g ∧ (colorOf scheme v).g ≤ 1) ∧
    (0 ≤ (colorOf scheme v).b ∧ (colorOf scheme v).b ≤ 51 / 50) ∧
    (scheme ≠ "hot" → (colorOf scheme v).b ≤ 1) ∧
    (0 ≤ (colorOf scheme v).a ∧ (colorOf scheme v).a ≤ 1) := by
  by_cases hp : scheme = "plasma"
  · simp only [colorOf, hp, reduceIte]
    split_ifs <;>
      refine ⟨⟨?_, ?_⟩, ⟨?_, ?_⟩, ⟨?_, ?_⟩, fun _ => ?_, ⟨?_, ?_⟩⟩ <;>
      (try dsimp only) <;> linarith
  · by_cases hv : scheme = "viridis"
    · simp only [colorOf, hp, hv, reduceIte]
      split_ifs <;>
        refine ⟨⟨?_, ?_⟩, ⟨?_, ?_⟩, ⟨?_, ?_⟩, fun _ => ?_, ⟨?_, ?_⟩⟩ <;>
        (try dsimp only) <;> linarith
    · by_cases hh : scheme = "hot"
      · simp only [colorOf, hp, hv, hh, reduceIte]
        split_ifs <;>
          refine ⟨⟨?_, ?_⟩, ⟨?_, ?_⟩, ⟨?_, ?_⟩, fun hne => absurd rfl hne, ⟨?_, ?_⟩⟩ <;>
          (try dsimp only) <;> linarith
      · by_cases hc : scheme = "cool"
        · simp only [colorOf, hp, hv, hh, hc, String.reduceEq, reduceIte]
          refine ⟨⟨?_, ?_⟩, ⟨?_, ?_⟩, ⟨?_, ?_⟩, fun _ => ?_, ⟨?_, ?_⟩⟩ <;>
            (try dsimp only) <;> linarith
        · by_cases hr : scheme = "rainbow"
          · simp only [colorOf, hp, hv, hh, hc, hr, String.reduceEq, reduceIte]
            have hb := hsv_to_rgb_unit_bounds (v * 300)
            refine ⟨⟨?_, ?_⟩, ⟨?_, ?_⟩, ⟨?_, ?_⟩, fun _ => ?_, ⟨?_, ?_⟩⟩ <;>
              (try dsimp only) <;>
              linarith [hb.1.1, hb.1.2, hb.2.1.1, hb.2.1.2, hb.2.2.1, hb.2.2.2]
          · simp only [colorOf, hp, hv, hh, hc, hr, String.reduceEq, reduceIte]
            refine ⟨⟨?_, ?_⟩, ⟨?_, ?_⟩, ⟨?_, ?_⟩, fun _ => ?_, ⟨?_, ?_⟩⟩ <;>
              (try dsimp only) <;> linarith

/-- C3 counterexample: the claim that every component lies in `[0,1]` fails at
scheme `hot` and `v = 1`, where the blue component is `51/50 > 1`. -/
theorem colorOf_bounds_counterexample : 1 < (colorOf "hot" 1).b := by
  have h : colorOf "hot" 1 = ⟨1, 1, 51 / 50, 1⟩ := by
    simp [colorOf]; norm_num
  rw [h]
  norm_num

/-- Witness for C3 amended at scheme `plasma` and `v = 1/2`. -/
theorem colorOf_bounds_amended_witness :
    ((0 : ℝ) ≤ 1 / 2 ∧ (1 / 2 : ℝ) ≤ 1) ∧
    ((0 ≤ (colorOf "plasma" (1 / 2)).r ∧ (colorOf "plasma" (1 / 2)).r ≤ 1) ∧
     (0 ≤ (colorOf "plasma" (1 / 2)).g ∧ (colorOf "plasma" (1 / 2)).g ≤ 1) ∧
     (0 ≤ (colorOf "plasma" (1 / 2)).b ∧ (colorOf "plasma" (1 / 2)).b ≤ 51 / 50) ∧
     ("plasma" ≠ "hot" → (colorOf "plasma" (1 / 2)).b ≤ 1) ∧
     (0 ≤ (colorOf "plasma" (1 / 2)).a ∧ (colorOf "plasma" (1 / 2)).a ≤ 1)) :=
  ⟨by norm_num, colorOf_bounds_amended "plasma" (1 / 2) (by norm_num) (by norm_num)⟩

/-! ## PopulationNormalizer: the normalization inside `compute_population_colors` -/

/-- Embedding of the transformed values of `compute_population_colors`
(`Islands.py` lines 208-212): `np.log1p` (that is, `log (1 + x)`) under the
logarithmic flag, the raw values otherwise. -/
def pop_values (use_logarithmic : Bool) (populations : List ℝ) : List ℝ :=
  if use_logarithmic then populations.map (fun v => Real.log (1 + v)) else populations

/-- Embedding of the boolean-mask filter `pop_values[pop_values > 0]`. -/
def positives : List ℝ → List ℝ
  | [] => []
  | t :: ts => if 0 < t then t :: positives ts else positives ts

/-- Minimum of a list, `0` on the empty list (the code only takes it on
nonempty lists). -/
def listMin : List ℝ → ℝ
  | [] => 0
  | x :: xs => xs.foldl min x

/-- Maximum of a list, `0` on the empty list (the code only takes it on
nonempty lists). -/
def listMax : List ℝ → ℝ
  | [] => 0
  | x :: xs => xs.foldl max x

/-- Embedding of the filtered values `valid_pops = pop_values[pop_values > 0]`. -/
def valid_pops (use_logarithmic : Bool) (populations : List ℝ) : List ℝ :=
  positives (pop_values use_logarithmic populations)

/-- Embedding of `min_pop = valid_pops.min()`. -/
def min_pop (use_logarithmic : Bool) (populations : List ℝ) : ℝ :=
  listMin (valid_pops use_logarithmic populations)

/-- Embedding of `max_pop = valid_pops.max()`. -/
def max_pop (use_logarithmic : Bool) (populations : List ℝ) : ℝ :=
  listMax (valid_pops use_logarithmic populations)

/-- Embedding of the `normalized_pops` computation of
`compute_population_colors` (`Islands.py` lines 214-228): all-zero output when
no strictly positive value exists or the positive range is degenerate,
otherwise `np.maximum(0, (pop_values - min_pop) / (max_pop - min_pop))`. -/
def normalizePops (use_logarithmic : Bool) (populations : List ℝ) : List ℝ :=
  if valid_pops use_logarithmic populations = [] then
    (pop_values use_logarithmic populations).map (fun _ => 0)
  else if max_pop use_logarithmic populations > min_pop use_logarithmic populations then
    (pop_values use_logarithmic populations).map
      (fun t => max 0 ((t - min_pop use_logarithmic populations) /
        (max_pop use_logarithmic populations - min_pop use_logarithmic populations)))
  else
    (pop_values use_logarithmic populations).map (fun _ => 0)

theorem mem_positives {x : ℝ} : ∀ {l : List ℝ}, x ∈ positives l ↔ x ∈ l ∧ 0 < x := by
  intro l
  induction l with
  | nil => simp [positives]
  | cons t ts ih =>
    by_cases ht : 0 < t
    · simp only [positives, if_pos ht, List.mem_cons, ih]
      constructor
      · rintro (rfl | ⟨hm, hp⟩)
        · exact ⟨Or.inl rfl, ht⟩
        · exact ⟨Or.inr hm, hp⟩
      · rintro ⟨rfl | hm, hp⟩
        · exact Or.inl rfl
        · exact Or.inr ⟨hm, hp⟩
    · simp only [positives, if_neg ht, List.mem_cons, ih]
      constructor
      · rintro ⟨hm, hp⟩
        exact ⟨Or.inr hm, hp⟩
      · rintro ⟨rfl | hm, hp⟩
        · exact absurd hp ht
        · exact ⟨hm, hp⟩

theorem positives_eq_nil {l : List ℝ} (h : ∀ x ∈ l, x ≤ 0) : positives l = [] := by
  induction l with
  | nil => rfl
  | cons t ts ih =>
    have ht : ¬0 < t := not_lt.mpr (h t (List.mem_cons_self t ts))
    simp only [positives, if_neg ht]
    exact ih (fun x hx => h x (List.mem_cons_of_mem t hx))

theorem le_foldl_max (l : List ℝ) : ∀ x : ℝ, x ≤ l.foldl max x := by
  induction l with
  | nil => intro x; simp
  | cons y ys ih =>
    intro x
    calc x ≤ max x y := le_max_left x y
    _ ≤ ys.foldl max (max x y) := ih (max x y)

theorem mem_le_foldl_max (l : List ℝ) : ∀ x a : ℝ, a ∈ l → a ≤ l.foldl max x := by
  induction l with
  | nil => intro x a ha; simp at ha
  | cons y ys ih =>
    intro x a ha
    rcases List.mem_cons.mp ha with rfl | hm
    · calc a ≤ max x a := le_max_right x a
      _ ≤ ys.foldl max (max x a) := le_foldl_max ys (max x a)
    · exact ih (max x y) a hm

theorem le_listMax {l : List ℝ} {a : ℝ} (ha : a ∈ l) : a ≤ listMax l := by
  cases l with
  | nil => simp at ha
  | cons x xs =>
    rcases List.mem_cons.mp ha with rfl | hm
    · exact le_foldl_max xs a
    · exact mem_le_foldl_max xs x a hm

theorem listMax_positives_pos {l : List ℝ} (h : positives l ≠ []) :
    0 < listMax (positives l) := by
  cases hpe : positives l with
  | nil => exact absurd hpe h
  | cons v vs =>
    have hv : v ∈ positives l := by rw [hpe]; exact List.mem_cons_self v vs
    have hpos : 0 < v := (mem_positives.mp hv).2
    have hle : v ≤ listMax (positives l) := le_listMax hv
    rw [hpe] at hle
    linarith

theorem normalizePops_zero_of_valid_nil (u : Bool) (p : List ℝ)
    (hval : valid_pops u p = []) : ∀ y ∈ normalizePops u p, y = 0 := by
  intro y hy
  unfold normalizePops at hy
  rw [if_pos hval] at hy
  rcases List.mem_map.mp hy with ⟨t, _, rfl⟩
  rfl

/-- C2: every normalized output lies in `[0,1]`; all-zero inputs, an empty
positive set, and a degenerate positive range (`max = min`) all yield all-zero
output; and in the nondegenerate case the output is exactly
`max 0 ((t - min) / (max - min))` per transformed value, which sends every
value at or below the minimum (original zeros included) to `0`. -/
theorem normalize_spec (u : Bool) (p : List ℝ) (h0 : ∀ v ∈ p, 0 ≤ v) :
    (∀ y ∈ normalizePops u p, 0 ≤ y ∧ y ≤ 1) ∧
    ((∀ v ∈ p, v = 0) → ∀ y ∈ normalizePops u p, y = 0) ∧
    (valid_pops u p = [] → ∀ y ∈ normalizePops u p, y = 0) ∧
    (max_pop u p = min_pop u p → ∀ y ∈ normalizePops u p, y = 0) ∧
    (max_pop u p > min_pop u p →
      normalizePops u p = (pop_values u p).map
        (fun t => max 0 ((t - min_pop u p) / (max_pop u p - min_pop u p))) ∧
      ∀ t ∈ pop_values u p, t ≤ min_pop u p →
        max 0 ((t - min_pop u p) / (max_pop u p - min_pop u p)) = 0) := by
  refine ⟨?_, ?_, ?_, ?_, ?_⟩
  · intro y hy
    unfold normalizePops at hy
    by_cases hval : valid_pops u p = []
    · rw [if_pos hval] at hy
      rcases List.mem_map.mp hy with ⟨t, _, rfl⟩
      norm_num
    · rw [if_neg hval] at hy
      by_cases hlt : max_pop u p > min_pop u p
      · rw [if_pos hlt] at hy
        rcases List.mem_map.mp hy with ⟨t, htm, rfl⟩
        have hmx : 0 < max_pop u p := listMax_positives_pos hval
        have htle : t ≤ max_pop u p := by
          by_cases htp : 0 < t
          · exact le_listMax (mem_positives.mpr ⟨htm, htp⟩)
          · linarith
        refine ⟨le_max_left 0 _, ?_⟩
        apply max_le (by norm_num)
        rw [div_le_one (by linarith)]
        linarith
      · rw [if_neg hlt] at hy
        rcases List.mem_map.mp hy with ⟨t, _, rfl⟩
        norm_num
  · intro hz
    apply normalizePops_zero_of_valid_nil
    apply positives_eq_nil
    intro x hx
    cases u with
    | false =>
      have hx2 : x ∈ p := hx
      rw [hz x hx2]
    | true =>
      rcases List.mem_map.mp hx with ⟨v, hv, rfl⟩
      rw [hz v hv]
      norm_num
  · exact normalizePops_zero_of_valid_nil u p
  · intro heq y hy
    unfold normalizePops at hy
    by_cases hval : valid_pops u p = []
    · rw [if_pos hval] at hy
      rcases List.mem_map.mp hy with ⟨t, _, rfl⟩
      rfl
    · rw [if_neg hval, if_neg (by rw [heq]; exact lt_irrefl _)] at hy
      rcases List.mem_map.mp hy with ⟨t, _, rfl⟩
      rfl
  · intro hlt
    have hval : valid_pops u p ≠ [] := by
      intro hv
      have h1 : max_pop u p = 0 := by unfold max_pop; rw [hv]; rfl
      have h2 : min_pop u p = 0 := by unfold min_pop; rw [hv]; rfl
      rw [h1, h2] at hlt
      exact lt_irrefl 0 hlt
    constructor
    · unfold normalizePops
      rw [if_neg hval, if_pos hlt]
    · intro t _ hle
      have hd : (t - min_pop u p) / (max_pop u p - min_pop u p) ≤ 0 :=
        div_nonpos_of_nonpos_of_nonneg (by linarith) (by linarith)
      exact max_eq_left hd

/-- Witness for C2 with the logarithmic flag off and populations `[0, 1, 3]`. -/
theorem normalize_spec_witness :
    (∀ v ∈ ([0, 1, 3] : List ℝ), 0 ≤ v) ∧
    (∀ y ∈ normalizePops false [0, 1, 3], 0 ≤ y ∧ y ≤ 1) :=
  ⟨by norm_num, (normalize_spec false [0, 1, 3] (by norm_num)).1⟩

/-- Division that signals failure on a zero denominator, used to show the
normalizer never divides by zero. -/
def checkedDiv (a b : ℝ) : Option ℝ := if b = 0 then none else some (a / b)

/-- Fallible map: fails when `f` fails on any element. -/
def mapOption (f : ℝ → Option ℝ) : List ℝ → Option (List ℝ)
  | [] => some []
  | x :: xs =>
    match f x, mapOption f xs with
    | some y, some ys => some (y :: ys)
    | _, _ => none

theorem mapOption_eq_map {f : ℝ → Option ℝ} {g : ℝ → ℝ} :
    ∀ {l : List ℝ}, (∀ a ∈ l, f a = some (g a)) → mapOption f l = some (l.map g) := by
  intro l
  induction l with
  | nil => intro _; rfl
  | cons x xs ih =>
    intro h
    have hx : f x = some (g x) := h x (List.mem_cons_self x xs)
    have hxs := ih (fun a ha => h a (List.mem_cons_of_mem x ha))
    simp only [mapOption, hx, hxs, List.map]

/-- The normalizer with its division checked: identical to `normalizePops`
except that the division by `max_pop - min_pop` fails (returns `none`) when
the denominator is zero. -/
def normalizePopsChecked (u : Bool) (p : List ℝ) : Option (List ℝ) :=
  if valid_pops u p = [] then some ((pop_values u p).map (fun _ => 0))
  else if max_pop u p > min_pop u p then
    mapOption (fun t => (checkedDiv (t - min_pop u p) (max_pop u p - min_pop u p)).map
      (fun q => max 0 q)) (pop_values u p)
  else some ((pop_values u p).map (fun _ => 0))

/-- C5: the normalization never divides by zero for any input (the all-zero
population set included): the checked normalizer always succeeds, and agrees
with the unchecked one; both degenerate branches are taken before the division
is reached. -/
theorem normalize_no_div_by_zero (u : Bool) (p : List ℝ) :
    normalizePopsChecked u p = some (normalizePops u p) := by
  unfold normalizePopsChecked normalizePops
  by_cases hval : valid_pops u p = []
  · rw [if_pos hval, if_pos hval]
  · rw [if_neg hval, if_neg hval]
    by_cases hlt : max_pop u p > min_pop u p
    · rw [if_pos hlt, if_pos hlt]
      apply mapOption_eq_map
      intro a _
      have hne : max_pop u p - min_pop u p ≠ 0 := ne_of_gt (by linarith)
      simp only [checkedDiv, if_neg hne, Option.map_some']
    · rw [if_neg hlt, if_neg hlt]

/-! ## CameraState: `on_mouse_wheel`, `on_mouse_press`, `on_mouse_drag` -/

/-- A wheel event as seen by the Tk handler: its button number and delta. -/
structure WheelEvent where
  num : ℕ
  delta : ℤ

/-- The zoom value before clamping, from `on_mouse_wheel`
(`Islands.py` lines 389-394): `zoom_increment = 0.1`, subtracted on
`num == 5 or delta == -120`, added on `num == 4 or delta == 120`. -/
def pre_clamp_zoom (e : WheelEvent) (zoom : ℝ) : ℝ :=
  if e.num = 5 ∨ e.delta = -120 then zoom - 0.1
  else if e.num = 4 ∨ e.delta = 120 then zoom + 0.1
  else zoom

/-- Embedding of `on_mouse_wheel`: the updated and then clamped zoom,
`max (min zoom (-1.0)) (-50.0)` (`Islands.py` line 397). -/
def on_mouse_wheel (e : WheelEvent) (zoom : ℝ) : ℝ :=
  max (min (pre_clamp_zoom e zoom) (-1.0)) (-50.0)

/-- The zoom after a sequence of wheel events, starting from the initial
`self.zoom = -8` (`Islands.py` line 88). -/
def zoom_after (events : List WheelEvent) : ℝ :=
  events.foldl (fun z e => on_mouse_wheel e z) (-8)

theorem on_mouse_wheel_bounds (e : WheelEvent) (z : ℝ) :
    -50 ≤ on_mouse_wheel e z ∧ on_mouse_wheel e z ≤ -1 := by
  unfold on_mouse_wheel
  constructor
  · calc (-50 : ℝ) = -50.0 := by norm_num
    _ ≤ max (min (pre_clamp_zoom e z) (-1.0)) (-50.0) := le_max_right _ _
  · apply max_le
    · calc min (pre_clamp_zoom e z) (-1.0) ≤ -1.0 := min_le_right _ _
      _ ≤ -1 := by norm_num
    · norm_num

theorem foldl_zoom_preserve : ∀ (es : List WheelEvent) (z : ℝ),
    -50 ≤ z → z ≤ -1 →
    -50 ≤ es.foldl (fun z e => on_mouse_wheel e z) z ∧
    es.foldl (fun z e => on_mouse_wheel e z) z ≤ -1 := by
  intro es
  induction es with
  | nil => intro z h1 h2; exact ⟨h1, h2⟩
  | cons e rest ih =>
    intro z _ _
    have hstep := on_mouse_wheel_bounds e z
    exact ih (on_mouse_wheel e z) hstep.1 hstep.2

/-- C6: starting from the initial zoom `-8.0`, after every wheel update the
zoom lies in `[-50, -1]`, for every finite event sequence and every prefix of
it of positive length; each recognized notch moves the zoom by exactly `0.1`
(signed by direction) before the clamp, and every update is the clamp of that
pre-clamp value. -/
theorem zoom_invariant (es : List WheelEvent) (n : ℕ) (h1 : 0 < n)
    (h2 : n ≤ es.length) :
    (-50 ≤ zoom_after (es.take n) ∧ zoom_after (es.take n) ≤ -1) ∧
    (∀ (e : WheelEvent) (z : ℝ), (e.num = 5 ∨ e.delta = -120) →
      pre_clamp_zoom e z = z - 0.1) ∧
    (∀ (e : WheelEvent) (z : ℝ), ¬(e.num = 5 ∨ e.delta = -120) →
      (e.num = 4 ∨ e.delta = 120) → pre_clamp_zoom e z = z + 0.1) ∧
    (∀ (e : WheelEvent) (z : ℝ),
      on_mouse_wheel e z = max (min (pre_clamp_zoom e z) (-1)) (-50)) := by
  refine ⟨?_, ?_, ?_, ?_⟩
  case refine_4 =>
    intro e z
    unfold on_mouse_wheel
    norm_num
  · cases hte : es.take n with
    | nil =>
      exfalso
      rcases List.take_eq_nil_iff.mp hte with h | h
      · rw [h] at h1; exact lt_irrefl 0 h1
      · rw [h] at h2; simp at h2; rw [h2] at h1; exact lt_irrefl 0 h1
    | cons e t =>
      unfold zoom_after
      rw [List.foldl_cons]
      have hstep := on_mouse_wheel_bounds e (-8)
      exact foldl_zoom_preserve t (on_mouse_wheel e (-8)) hstep.1 hstep.2
  · intro e z hd
    unfold pre_clamp_zoom
    rw [if_pos hd]
  · intro e z hnd hu
    unfold pre_clamp_zoom
    rw [if_neg hnd, if_pos hu]

/-- Witness for C6 with the single scroll-down event `num = 5` and `n = 1`. -/
theorem zoom_invariant_witness :
    (0 < 1 ∧ 1 ≤ ([⟨5, 0⟩] : List WheelEvent).length) ∧
    (-50 ≤ zoom_after (([⟨5, 0⟩] : List WheelEvent).take 1) ∧
     zoom_after (([⟨5, 0⟩] : List WheelEvent).take 1) ≤ -1) :=
  ⟨⟨by norm_num, by simp⟩,
   (zoom_invariant [⟨5, 0⟩] 1 (by norm_num) (by simp)).1⟩

/-- The drag-relevant viewer state: the dragging flag, the last mouse
position, and the point-cloud rotation angles (`Islands.py` lines 81-87). -/
structure DragState where
  is_dragging : Bool
  last_x : ℤ
  last_y : ℤ
  rotation_angle_x : ℝ
  rotation_angle_y : ℝ

/-- Embedding of `on_mouse_press`: starts a drag and records the position. -/
def on_mouse_press (ex ey : ℤ) (s : DragState) : DragState :=
  { s with is_dragging := true, last_x := ex, last_y := ey }

/-- Embedding of `on_mouse_release`: ends the drag. -/
def on_mouse_release (s : DragState) : DragState :=
  { s with is_dragging := false }

/-- Embedding of `on_mouse_drag` (`Islands.py` lines 378-385): while dragging,
accumulate `dx * 0.5` into the cloud Y-rotation and `dy * 0.5` into the cloud
X-rotation, then record the position; otherwise do nothing. -/
def on_mouse_drag (ex ey : ℤ) (s : DragState) : DragState :=
  if s.is_dragging then
    { s with
      rotation_angle_y := s.rotation_angle_y + ((ex - s.last_x : ℤ) : ℝ) * 0.5,
      rotation_angle_x := s.rotation_angle_x + ((ey - s.last_y : ℤ) : ℝ) * 0.5,
      last_x := ex,
      last_y := ey }
  else s

/-- C7: while a drag is active, a drag event at `(ex, ey)` adds `Δx · 0.5` to
the cloud Y-rotation and `Δy · 0.5` to the cloud X-rotation, where the delta
is measured from the immediately preceding recorded position, which the event
then overwrites (so the next delta is measured from this event); a drag event
with no active drag leaves the state, rotations included, unchanged. -/
theorem on_mouse_drag_spec (s : DragState) (ex ey : ℤ) :
    (s.is_dragging = true →
      (on_mouse_drag ex ey s).rotation_angle_y =
        s.rotation_angle_y + ((ex - s.last_x : ℤ) : ℝ) * 0.5 ∧
      (on_mouse_drag ex ey s).rotation_angle_x =
        s.rotation_angle_x + ((ey - s.last_y : ℤ) : ℝ) * 0.5 ∧
      (on_mouse_drag ex ey s).last_x = ex ∧
      (on_mouse_drag ex ey s).last_y = ey ∧
      (on_mouse_drag ex ey s).is_dragging = true) ∧
    (s.is_dragging = false → on_mouse_drag ex ey s = s) := by
  constructor
  · intro hd
    simp [on_mouse_drag, hd]
  · intro hd
    simp [on_mouse_drag, hd]

/-- Witness for C7: an active drag from `(3, 4)` to `(7, 9)` on state
`⟨true, 3, 4, 10, 20⟩`, and an inactive drag on `⟨false, 3, 4, 10, 20⟩`. -/
theorem on_mouse_drag_spec_witness :
    ((⟨true, 3, 4, 10, 20⟩ : DragState).is_dragging = true ∧
     (on_mouse_drag 7 9 ⟨true, 3, 4, 10, 20⟩).rotation_angle_y =
       20 + ((7 - 3 : ℤ) : ℝ) * 0.5 ∧
     (on_mouse_drag 7 9 ⟨true, 3, 4, 10, 20⟩).rotation_angle_x =
       10 + ((9 - 4 : ℤ) : ℝ) * 0.5 ∧
     (on_mouse_drag 7 9 ⟨true, 3, 4, 10, 20⟩).last_x = 7 ∧
     (on_mouse_drag 7 9 ⟨true, 3, 4, 10, 20⟩).last_y = 9 ∧
     (on_mouse_drag 7 9 ⟨true, 3, 4, 10, 20⟩).is_dragging = true) ∧
    (on_mouse_drag 7 9 ⟨false, 3, 4, 10, 20⟩ = ⟨false, 3, 4, 10, 20⟩) :=
  ⟨⟨rfl, (on_mouse_drag_spec ⟨true, 3, 4, 10, 20⟩ 7 9).1 rfl⟩,
   (on_mouse_drag_spec ⟨false, 3, 4, 10, 20⟩ 7 9).2 rfl⟩

/-! ## Heatmap settings: `update_heatmap_settings` -/

/-- Embedding of `compute_population_colors` (`Islands.py` lines 203-237):
normalize the populations under the logarithmic flag, then colorize. -/
def compute_population_colors (scheme : String) (use_logarithmic : Bool)
    (populations : List ℝ) : List RGBA :=
  generate_color_scheme scheme (normalizePops use_logarithmic populations)

/-- The heatmap-relevant viewer state: the scheme string, the logarithmic
flag, the loaded populations (`none` when no point data was loaded), and the
derived color array. -/
structure AppState where
  color_scheme : String
  use_logarithmic : Bool
  populations : Option (List ℝ)
  colors_vbo : List RGBA

/-- Embedding of `update_heatmap_settings` (`Islands.py` lines 337-346):
overwrite each config field only when the corresponding argument is present,
then, only when population data was loaded, recompute the colors and redraw.
The boolean result records whether a redraw was triggered. -/
def update_heatmap_settings (scheme : Option String) (logarithmic : Option Bool)
    (s : AppState) : AppState × Bool :=
  let s1 := match scheme with
    | some sch => { s with color_scheme := sch }
    | none => s
  let s2 := match logarithmic with
    | some lg => { s1 with use_logarithmic := lg }
    | none => s1
  match s2.populations with
  | some pops =>
    ({ s2 with colors_vbo :=
        compute_population_colors s2.color_scheme s2.use_logarithmic pops }, true)
  | none => (s2, false)

/-- C10: an absent scheme argument leaves the scheme unchanged, an absent
logarithmic argument leaves the flag unchanged, and with no loaded point data
the call changes only the two config fields (to the given values when present)
and triggers neither a color recompute nor a redraw. -/
theorem update_heatmap_settings_spec (s : AppState) (sch : Option String)
    (lg : Option Bool) :
    ((update_heatmap_settings none lg s).1.color_scheme = s.color_scheme) ∧
    ((update_heatmap_settings sch none s).1.use_logarithmic = s.use_logarithmic) ∧
    (s.populations = none →
      (update_heatmap_settings sch lg s).2 = false ∧
      (update_heatmap_settings sch lg s).1.colors_vbo = s.colors_vbo ∧
      (update_heatmap_settings sch lg s).1.populations = none ∧
      (update_heatmap_settings sch lg s).1.color_scheme =
        (match sch with | some c => c | none => s.color_scheme) ∧
      (update_heatmap_settings sch lg s).1.use_logarithmic =
        (match lg with | some l => l | none => s.use_logarithmic)) := by
  refine ⟨?_, ?_, ?_⟩
  · cases lg <;> cases hp : s.populations <;>
      simp [update_heatmap_settings, hp]
  · cases sch <;> cases hp : s.populations <;>
      simp [update_heatmap_settings, hp]
  · intro hp
    cases sch <;> cases lg <;>
      simp [update_heatmap_settings, hp]

/-- Witness for C10 on a state with no loaded populations, setting the scheme
to `viridis` and the flag to `false`. -/
theorem update_heatmap_settings_spec_witness :
    ((⟨"plasma", true, none, []⟩ : AppState).populations = none) ∧
    ((update_heatmap_settings (some "viridis") (some false)
        ⟨"plasma", true, none, []⟩).2 = false ∧
     (update_heatmap_settings (some "viridis") (some false)
        ⟨"plasma", true, none, []⟩).1.colors_vbo = [] ∧
     (update_heatmap_settings (some "viridis") (some false)
        ⟨"plasma", true, none, []⟩).1.populations = none ∧
     (update_heatmap_settings (some "viridis") (some false)
        ⟨"plasma", true, none, []⟩).1.color_scheme = "viridis" ∧
     (update_heatmap_settings (some "viridis") (some false)
        ⟨"plasma", true, none, []⟩).1.use_logarithmic = false) :=
  ⟨rfl, (update_heatmap_settings_spec ⟨"plasma", true, none, []⟩
    (some "viridis") (some false)).2.2 rfl⟩

/-! ## SceneComposer: the `redraw` transform composition -/

/-- A 3D point. -/
abbrev Vec3 := ℝ × ℝ × ℝ

/-- The effect of `glTranslatef`. -/
def translateBy (tx ty tz : ℝ) (p : Vec3) : Vec3 :=
  (p.1 + tx, p.2.1 + ty, p.2.2 + tz)

/-- Rotation about the X axis by an angle in radians. -/
def rotXpt (c : ℝ) (p : Vec3) : Vec3 :=
  (p.1, p.2.1 * Real.cos c - p.2.2 * Real.sin c,
   p.2.1 * Real.sin c + p.2.2 * Real.cos c)

/-- Rotation about the Y axis by an angle in radians. -/
def rotYpt (c : ℝ) (p : Vec3) : Vec3 :=
  (p.1 * Real.cos c + p.2.2 * Real.sin c, p.2.1,
   -p.1 * Real.sin c + p.2.2 * Real.cos c)

/-- Rotation about the Z axis by an angle in radians. -/
def rotZpt (c : ℝ) (p : Vec3) : Vec3 :=
  (p.1 * Real.cos c - p.2.1 * Real.sin c,
   p.1 * Real.sin c + p.2.1 * Real.cos c, p.2.2)

/-- The effect of `glRotatef angle ax ay az` for the unit axes used by
`redraw` (an angle in degrees about X, Y or Z); the identity on any other
axis, which the code never passes. -/
def glRotate (angle ax ay az : ℝ) (p : Vec3) : Vec3 :=
  if ax = 1 ∧ ay = 0 ∧ az = 0 then rotXpt (radians angle) p
  else if ax = 0 ∧ ay = 1 ∧ az = 0 then rotYpt (radians angle) p
  else if ax = 0 ∧ ay = 0 ∧ az = 1 then rotZpt (radians angle) p
  else p

/-- The modelview-relevant GL calls issued by `redraw`. -/
inductive GLCmd where
  | translate (tx ty tz : ℝ)
  | rotate (angle ax ay az : ℝ)
  | pushMatrix
  | popMatrix
  | drawSphere
  | drawPoints

/-- The rotation and zoom fields of the viewer read by `redraw`. -/
structure RenderState where
  zoom : ℝ
  rotation_angle_x : ℝ
  rotation_angle_y : ℝ
  sphere_rotation_x : ℝ
  sphere_rotation_y : ℝ
  sphere_rotation_z : ℝ

/-- Embedding of the `redraw` call sequence (`Islands.py` lines 142-166):
after `glLoadIdentity`, translate by the zoom, apply the point-cloud rotation
(X then Y), push, apply the sphere rotation (X then Y then Z), draw the
sphere, pop, then draw the point cloud. -/
def redrawCmds (st : RenderState) : List GLCmd :=
  [GLCmd.translate 0 0 st.zoom,
   GLCmd.rotate st.rotation_angle_x 1 0 0,
   GLCmd.rotate st.rotation_angle_y 0 1 0,
   GLCmd.pushMatrix,
   GLCmd.rotate st.sphere_rotation_x 1 0 0,
   GLCmd.rotate st.sphere_rotation_y 0 1 0,
   GLCmd.rotate st.sphere_rotation_z 0 0 1,
   GLCmd.drawSphere,
   GLCmd.popMatrix,
   GLCmd.drawPoints]

/-- The interpreter state: the current modelview transform, the matrix stack,
and the transform in effect at each draw call (once it has happened). -/
structure GLState where
  cur : Vec3 → Vec3
  stack : List (Vec3 → Vec3)
  sphere_transform : Option (Vec3 → Vec3)
  points_transform : Option (Vec3 → Vec3)

/-- One step of the matrix-stack semantics: transforms compose onto the
current matrix, push/pop save and restore it, draws record it. -/
def glStep (st : GLState) (c : GLCmd) : GLState :=
  match c with
  | GLCmd.translate tx ty tz => { st with cur := st.cur ∘ translateBy tx ty tz }
  | GLCmd.rotate a ax ay az => { st with cur := st.cur ∘ glRotate a ax ay az }
  | GLCmd.pushMatrix => { st with stack := st.cur :: st.stack }
  | GLCmd.popMatrix =>
    match st.stack with
    | m :: rest => { st with cur := m, stack := rest }
    | [] => st
  | GLCmd.drawSphere => { st with sphere_transform := some st.cur }
  | GLCmd.drawPoints => { st with points_transform := some st.cur }

/-- Run a command list from the identity transform and an empty stack. -/
def runGL (cmds : List GLCmd) : GLState :=
  cmds.foldl glStep
    { cur := id, stack := [], sphere_transform := none, points_transform := none }

/-- The shared transform prefix: zoom translation followed by the point-cloud
rotation (X then Y). -/
def cloud_transform (st : RenderState) : Vec3 → Vec3 :=
  translateBy 0 0 st.zoom ∘ glRotate st.rotation_angle_x 1 0 0 ∘
    glRotate st.rotation_angle_y 0 1 0

/-- The sphere's local rotation (X then Y then Z). -/
def sphere_local (st : RenderState) : Vec3 → Vec3 :=
  glRotate st.sphere_rotation_x 1 0 0 ∘ glRotate st.sphere_rotation_y 0 1 0 ∘
    glRotate st.sphere_rotation_z 0 0 1

/-- C9 counterexample: the claim that the point-cloud rotation does not affect
the transform under which the sphere is drawn is false. Two render states that
differ only in the cloud X-rotation (`0` versus `180` degrees, with all sphere
rotations zero and zoom zero) draw the sphere under different transforms: the
test point `(0,1,0)` maps to `(0,1,0)` under one and `(0,-1,0)` under the
other. -/
theorem redraw_transforms_counterexample :
    ((runGL (redrawCmds ⟨0, 0, 0, 0, 0, 0⟩)).sphere_transform.map
        (fun f => f (0, 1, 0)) = some ((0 : ℝ), (1 : ℝ), (0 : ℝ))) ∧
    ((runGL (redrawCmds ⟨0, 180, 0, 0, 0, 0⟩)).sphere_transform.map
        (fun f => f (0, 1, 0)) = some ((0 : ℝ), (-1 : ℝ), (0 : ℝ))) ∧
    (((0 : ℝ), (1 : ℝ), (0 : ℝ)) : Vec3) ≠ ((0 : ℝ), (-1 : ℝ), (0 : ℝ)) := by
  refine ⟨?_, ?_, ?_⟩
  · simp [runGL, redrawCmds, glStep, glRotate, translateBy, rotXpt, rotYpt, rotZpt,
      radians_zero, Real.cos_zero, Real.sin_zero]
  · simp [runGL, redrawCmds, glStep, glRotate, translateBy, rotXpt, rotYpt, rotZpt,
      radians_zero, radians_one_eighty, Real.cos_zero, Real.sin_zero,
      Real.cos_pi, Real.sin_pi]
  · simp [Prod.ext_iff]
    norm_num

/-- C9 amended: the point cloud is drawn under exactly the shared prefix
(zoom translation then cloud rotation), so the sphere's local rotation does
not affect it; the sphere is drawn under that same shared prefix composed
with its local X-then-Y-then-Z rotation — the two draws share the zoom and
cloud-rotation prefix (which therefore does affect the sphere), and only the
sphere's local rotation is isolated by the push/pop pair. -/
theorem redraw_transforms_amended (st : RenderState) :
    (runGL (redrawCmds st)).points_transform = some (cloud_transform st) ∧
    (runGL (redrawCmds st)).sphere_transform =
      some (cloud_transform st ∘ sphere_local st) ∧
    (∀ st2 : RenderState, st2.zoom = st.zoom →
      st2.rotation_angle_x = st.rotation_angle_x →
      st2.rotation_angle_y = st.rotation_angle_y →
      (runGL (redrawCmds st2)).points_transform =
        (runGL (redrawCmds st)).points_transform) := by
  refine ⟨rfl, rfl, ?_⟩
  intro st2 hz hx hy
  show some (cloud_transform st2) = some (cloud_transform st)
  rw [cloud_transform, cloud_transform, hz, hx, hy]

/-- Witness for C9 amended: two states sharing zoom and cloud rotation but
with different sphere rotations draw the point cloud identically. -/
theorem redraw_transforms_amended_witness :
    ((⟨0, 0, 0, 90, 45, 30⟩ : RenderState).zoom =
       (⟨0, 0, 0, 0, 0, 0⟩ : RenderState).zoom ∧
     (⟨0, 0, 0, 90, 45, 30⟩ : RenderState).rotation_angle_x =
       (⟨0, 0, 0, 0, 0, 0⟩ : RenderState).rotation_angle_x ∧
     (⟨0, 0, 0, 90, 45, 30⟩ : RenderState).rotation_angle_y =
       (⟨0, 0, 0, 0, 0, 0⟩ : RenderState).rotation_angle_y) ∧
    (runGL (redrawCmds ⟨0, 0, 0, 90, 45, 30⟩)).points_transform =
      (runGL (redrawCmds ⟨0, 0, 0, 0, 0, 0⟩)).points_transform :=
  ⟨⟨rfl, rfl, rfl⟩,
   (redraw_transforms_amended ⟨0, 0, 0, 0, 0, 0⟩).2.2
     ⟨0, 0, 0, 90, 45, 30⟩ rfl rfl rfl⟩

end Islands